import Mathlib

/-!
# mpvcore/player/misc.c: relative-time resolution and play-range end

A shallow embedding of `get_relative_time`, `rel_time_to_abs`,
`get_play_end_pts`, `get_main_demux_pts`, `get_start_time` and
`mp_get_cache_percent` from `mpvcore/player/misc.c`.

The C type `double` is embedded as an executable model of IEEE-754 binary64
with round-to-nearest, ties-to-even.  A finite value is stored as a sign, an
integer significand and a binary exponent; every arithmetic operation computes
the exact result on integers and rounds it once.
-/

namespace Mpv

/-- IEEE-754 binary64 datum.  `fin s m e` denotes `(-1)^s * m * 2^e`.  The
arithmetic operations return the canonical form: `m < 2^53`,
`-1074 ≤ e ≤ 971`, and `2^52 ≤ m` unless `e = -1074`. -/
inductive Double where
  | nan : Double
  | inf (neg : Bool) : Double
  | fin (neg : Bool) (m : Nat) (e : Int) : Double
  deriving DecidableEq, Repr

namespace Double

/-- Number of binary digits of `n`, counted with at most `fuel` halvings. -/
def bitLengthAux : Nat → Nat → Nat
  | 0, _ => 0
  | fuel + 1, n => if n = 0 then 0 else bitLengthAux fuel (n / 2) + 1

/-- Number of binary digits of `n` (0 for 0). -/
def bitLength (n : Nat) : Nat := bitLengthAux n n

/-- Round the positive rational `n / d * 2^e` to binary64 (nearest, ties to
even) and attach the sign `neg`.  The quotient is first computed with at
least 64 significant bits plus a sticky flag, then cut to 53 bits, or to fewer
when the exponent would fall below the subnormal exponent -1074. -/
def roundNearestEven (neg : Bool) (n d : Nat) (e : Int) : Double :=
  let sh : Nat := (64 + bitLength d) - bitLength n
  let q : Nat := (n * 2 ^ sh) / d
  let sticky : Bool := decide ((n * 2 ^ sh) % d ≠ 0)
  let e0 : Int := e - (sh : Int)
  let drop : Nat := (max ((bitLength q : Int) - 53) (-1074 - e0)).toNat
  let m : Nat := q / 2 ^ drop
  let rem : Nat := q % 2 ^ drop
  let half : Nat := 2 ^ (drop - 1)
  let up : Bool := decide (half < rem) || (decide (rem = half) && (sticky || decide (m % 2 = 1)))
  let m1 : Nat := if up then m + 1 else m
  let e1 : Int := e0 + (drop : Int)
  let m2 : Nat := if m1 = 2 ^ 53 then 2 ^ 52 else m1
  let e2 : Int := if m1 = 2 ^ 53 then e1 + 1 else e1
  if 971 < e2 then inf neg else fin neg m2 e2

/-- Signed integer `(-1)^s * m * 2^(e - e0)`, for `e0 ≤ e`: the value of
`fin s m e` counted in units of `2^e0`. -/
def sval (s : Bool) (m : Nat) (e e0 : Int) : Int :=
  (if s then -1 else 1) * ((m * 2 ^ (e - e0).toNat : Nat) : Int)

/-- Positive zero, the C literal `0.0`. -/
def zero : Double := fin false 0 (-1074)

/-- Conversion of a C integer constant to `double`. -/
def ofInt (i : Int) : Double :=
  if i = 0 then zero else roundNearestEven (decide (i < 0)) i.natAbs 1 0

/-- Unary minus. -/
def neg : Double → Double
  | nan => nan
  | inf s => inf (!s)
  | fin s m e => fin (!s) m e

/-- The C operator `+` on doubles. -/
def add : Double → Double → Double
  | nan, _ => nan
  | _, nan => nan
  | inf s1, inf s2 => if s1 = s2 then inf s1 else nan
  | inf s1, fin _ _ _ => inf s1
  | fin _ _ _, inf s2 => inf s2
  | fin s1 m1 e1, fin s2 m2 e2 =>
    let e0 := min e1 e2
    let z : Int := sval s1 m1 e1 e0 + sval s2 m2 e2 e0
    if z = 0 then fin (s1 && s2) 0 (-1074)
    else roundNearestEven (decide (z < 0)) z.natAbs 1 e0

/-- The C operator `-` on doubles. -/
def sub (a b : Double) : Double := add a (neg b)

/-- The C operator `*` on doubles. -/
def mul : Double → Double → Double
  | nan, _ => nan
  | _, nan => nan
  | inf s1, inf s2 => inf (xor s1 s2)
  | inf s1, fin s2 m2 _ => if m2 = 0 then nan else inf (xor s1 s2)
  | fin s1 m1 _, inf s2 => if m1 = 0 then nan else inf (xor s1 s2)
  | fin s1 m1 e1, fin s2 m2 e2 =>
    if m1 * m2 = 0 then fin (xor s1 s2) 0 (-1074)
    else roundNearestEven (xor s1 s2) (m1 * m2) 1 (e1 + e2)

/-- The C operator `/` on doubles. -/
def div : Double → Double → Double
  | nan, _ => nan
  | _, nan => nan
  | inf _, inf _ => nan
  | inf s1, fin s2 _ _ => inf (xor s1 s2)
  | fin s1 _ _, inf s2 => fin (xor s1 s2) 0 (-1074)
  | fin s1 m1 e1, fin s2 m2 e2 =>
    if m2 = 0 then (if m1 = 0 then nan else inf (xor s1 s2))
    else if m1 = 0 then fin (xor s1 s2) 0 (-1074)
    else roundNearestEven (xor s1 s2) m1 m2 (e1 - e2)

/-- The C operator `<` on doubles (false when an operand is NaN). -/
def lt : Double → Double → Bool
  | nan, _ => false
  | _, nan => false
  | inf s1, inf s2 => s1 && !s2
  | inf s1, fin _ _ _ => s1
  | fin _ _ _, inf s2 => !s2
  | fin s1 m1 e1, fin s2 m2 e2 =>
    decide (sval s1 m1 e1 (min e1 e2) < sval s2 m2 e2 (min e1 e2))

/-- The C operator `==` on doubles (false when an operand is NaN, true for
zeros of either sign). -/
def eq : Double → Double → Bool
  | nan, _ => false
  | _, nan => false
  | inf s1, inf s2 => decide (s1 = s2)
  | inf _, fin _ _ _ => false
  | fin _ _ _, inf _ => false
  | fin s1 m1 e1, fin s2 m2 e2 =>
    decide (sval s1 m1 e1 (min e1 e2) = sval s2 m2 e2 (min e1 e2))

/-- The C operator `!=` on doubles. -/
def ne (a b : Double) : Bool := !(eq a b)

/-- The C operator `>` on doubles. -/
def gt (a b : Double) : Bool := lt b a

/-- The C operator `>=` on doubles. -/
def ge (a b : Double) : Bool := lt b a || eq a b

end Double

/-- The constant `MP_NOPTS_VALUE`, the "no timestamp" sentinel.
Modelled from the spec: the macro is defined in `mpvcore/mp_common.h`, which
is not part of the sources at hand; there it is `(-1LL<<63)`, which as a
`double` is `-2^63`. -/
def MP_NOPTS_VALUE : Double := Double.ofInt (-(2 ^ 63))

/-- The macro `MPMAX(a, b)`.
Modelled from the spec: the macro is defined in `mpvcore/mp_common.h`, which
is not part of the sources at hand; there it is `((a) > (b) ? (a) : (b))`. -/
def MPMAX (a b : Double) : Double := if Double.gt a b then a else b

/-- The enumeration of `m_rel_time.type`.
Modelled from the spec: the declaration is in `mpvcore/m_option.h`, which is
not part of the sources at hand.  `REL_TIME_NONE` is the spec's `Unset`. -/
inductive m_rel_time_type where
  | REL_TIME_NONE
  | REL_TIME_ABSOLUTE
  | REL_TIME_NEGATIVE
  | REL_TIME_PERCENT
  | REL_TIME_CHAPTER
  deriving DecidableEq, Repr

open m_rel_time_type

/-- Integer value of an enumerator, `REL_TIME_NONE` being 0, as tested by
`if (opts->play_end.type)`. -/
def m_rel_time_type.val : m_rel_time_type → Int
  | REL_TIME_NONE => 0
  | REL_TIME_ABSOLUTE => 1
  | REL_TIME_NEGATIVE => 2
  | REL_TIME_PERCENT => 3
  | REL_TIME_CHAPTER => 4

/-- The record `struct m_rel_time`: a position and the unit it is given in. -/
structure m_rel_time where
  pos : Double
  type_ : m_rel_time_type

/-- The fields of `struct MPOpts` read by `get_play_end_pts`. -/
structure MPOpts where
  play_start : m_rel_time
  play_end : m_rel_time
  play_length : m_rel_time

/-- A stream header as seen by `get_main_demux_pts`: `next_pts` is the value
of `demux_get_next_pts(sh)`, a function defined outside this file. -/
structure sh_stream where
  next_pts : Double

/-- The demuxer as seen by `get_start_time` and `get_main_demux_pts`:
`start_time` is the value of `demuxer_get_start_time(demuxer)`, a function
defined outside this file, and `streams` is the array
`streams[0 .. num_streams - 1]`. -/
structure demuxer where
  start_time : Double
  streams : List sh_stream

/-- The stream as seen by `mp_get_cache_percent`.  `cache_size` describes the
call `stream_control(stream, STREAM_CTRL_GET_CACHE_SIZE, &size)` and
`cache_fill` the call `stream_control(stream, STREAM_CTRL_GET_CACHE_FILL,
&fill)`, of a function defined outside this file: `some v` when the call
stores the `int64_t` value `v` in the variable, `none` when it leaves the
variable as it was. -/
structure stream where
  cache_size : Option Int
  cache_fill : Option Int

/-- The part of `struct MPContext` that the functions below read.
`time_length` is the value of `get_time_length(mpctx)` and
`chapter_start_time x` the value of the call `chapter_start_time(mpctx, x)`
for a `double` argument `x` (C's conversion of the argument included); both
functions are defined outside this file.  `last_time` is an `int64_t` count
of microseconds. -/
structure MPContext where
  opts : MPOpts
  demuxer : Option demuxer
  time_length : Double
  chapter_start_time : Double → Double
  stream : Option stream
  last_time : Int

/-- The call `get_time_length(mpctx)`. -/
def get_time_length (mpctx : MPContext) : Double := mpctx.time_length

/-- The call `chapter_start_time(mpctx, x)`. -/
def chapter_start_time (mpctx : MPContext) (x : Double) : Double :=
  mpctx.chapter_start_time x

/-- `double rel_time_to_abs(struct MPContext *mpctx, struct m_rel_time t,
double fallback_time)`. -/
def rel_time_to_abs (mpctx : MPContext) (t : m_rel_time) (fallback_time : Double) : Double :=
  let length := get_time_length mpctx
  match t.type_ with
  | REL_TIME_ABSOLUTE => t.pos
  | REL_TIME_NEGATIVE =>
    if Double.ne length (Double.ofInt 0) then MPMAX (Double.sub length t.pos) Double.zero
    else fallback_time
  | REL_TIME_PERCENT =>
    if Double.ne length (Double.ofInt 0) then Double.mul length (Double.div t.pos (Double.ofInt 100))
    else fallback_time
  | REL_TIME_CHAPTER =>
    if Double.ge (chapter_start_time mpctx t.pos) (Double.ofInt 0) then chapter_start_time mpctx t.pos
    else fallback_time
  | REL_TIME_NONE => fallback_time

/-- `double get_start_time(struct MPContext *mpctx)`. -/
def get_start_time (mpctx : MPContext) : Double :=
  match mpctx.demuxer with
  | none => Double.ofInt 0
  | some d => d.start_time

/-- `double get_play_end_pts(struct MPContext *mpctx)`. -/
def get_play_end_pts (mpctx : MPContext) : Double :=
  let opts := mpctx.opts
  if opts.play_end.type_.val ≠ 0 then
    rel_time_to_abs mpctx opts.play_end MP_NOPTS_VALUE
  else if opts.play_length.type_.val ≠ 0 then
    let startpts := get_start_time mpctx
    let start := rel_time_to_abs mpctx opts.play_start startpts
    let length := rel_time_to_abs mpctx opts.play_length (Double.ofInt (-1))
    if Double.ne start (Double.ofInt (-1)) && Double.ne length (Double.ofInt (-1)) then
      Double.add start length
    else MP_NOPTS_VALUE
  else MP_NOPTS_VALUE

/-- The value of an integer expression as a signed two's-complement number of
`w` bits. -/
def wrapSigned (w : Nat) (x : Int) : Int :=
  (x + 2 ^ (w - 1)) % 2 ^ w - 2 ^ (w - 1)

/-- The decimal constant `n * 10^(-k)` as a `double`, rounded to nearest. -/
def Double.ofDecimal (n k : Nat) : Double :=
  if n = 0 then Double.zero else Double.roundNearestEven false n (10 ^ k) 0

/-- The local variable `delta` of `get_relative_time`, for the clock reading
`new_time` returned by `mp_time_us()`: the `int64_t` difference
`new_time - mpctx->last_time`. -/
def relative_time_delta (new_time : Int) (mpctx : MPContext) : Int :=
  wrapSigned 64 (new_time - mpctx.last_time)

/-- `double get_relative_time(struct MPContext *mpctx)`, for the clock reading
`new_time` returned by `mp_time_us()`, a function defined outside this file.
The result is the returned value and the context after the call. -/
def get_relative_time (new_time : Int) (mpctx : MPContext) : Double × MPContext :=
  let delta := relative_time_delta new_time mpctx
  (Double.mul (Double.ofInt delta) (Double.ofDecimal 1 6),
   ⟨mpctx.opts, mpctx.demuxer, mpctx.time_length, mpctx.chapter_start_time, mpctx.stream,
    new_time⟩)

/-- The values of `delta` in successive calls of `get_relative_time` made at
the clock readings `ts`, starting from the context `mpctx`. -/
def relative_time_deltas : List Int → MPContext → List Int
  | [], _ => []
  | t :: ts, mpctx =>
    relative_time_delta t mpctx :: relative_time_deltas ts (get_relative_time t mpctx).2

/-- Successive calls of `get_relative_time` made at the clock readings `ts`,
starting from the context `mpctx`: the returned values and the final
context. -/
def relative_time_calls : List Int → MPContext → List Double × MPContext
  | [], mpctx => ([], mpctx)
  | t :: ts, mpctx =>
    ((get_relative_time t mpctx).1 :: (relative_time_calls ts (get_relative_time t mpctx).2).1,
     (relative_time_calls ts (get_relative_time t mpctx).2).2)

/-- Every difference between a clock reading of `ts` and the reading before
it (`last` for the first) is representable in `int64_t`. -/
def deltas_representable : List Int → Int → Bool
  | [], _ => true
  | t :: ts, last =>
    decide (-(2 ^ 63) ≤ t - last ∧ t - last < 2 ^ 63) && deltas_representable ts t

/-- The call `demux_get_next_pts(sh)`. -/
def demux_get_next_pts (sh : sh_stream) : Double := sh.next_pts

/-- `double get_main_demux_pts(struct MPContext *mpctx)`: the loop over
`n = 0 .. num_streams - 1` is a left fold over the streams. -/
def get_main_demux_pts (mpctx : MPContext) : Double :=
  let main_new_pos := MP_NOPTS_VALUE
  match mpctx.demuxer with
  | some d =>
    d.streams.foldl
      (fun main_new_pos sh =>
        if Double.eq main_new_pos MP_NOPTS_VALUE then demux_get_next_pts sh else main_new_pos)
      main_new_pos
  | none => main_new_pos

/-- The call `stream_control(stream, cmd, &var)` for a cache query: the new
value of `var`, given what the stream reports for `cmd`. -/
def stream_control (reported : Option Int) (var : Int) : Int :=
  match reported with
  | some v => v
  | none => var

/-- `int mp_get_cache_percent(struct MPContext *mpctx)`.  The result is
`none` when the division `fill / (size / 100)` has a zero divisor, which C
leaves undefined.  The quotients are C's truncating `int64_t` divisions and
the returned quotient is converted to the 32-bit return type `int`. -/
def mp_get_cache_percent (mpctx : MPContext) : Option Int :=
  match mpctx.stream with
  | some s =>
    let size : Int := -1
    let fill : Int := -1
    let size := stream_control s.cache_size size
    let fill := stream_control s.cache_fill fill
    if size > 0 ∧ fill ≥ 0 then
      if Int.tdiv size 100 = 0 then none
      else some (wrapSigned 32 (Int.tdiv fill (Int.tdiv size 100)))
    else some (-1)
  | none => some (-1)

/-- A specification with kind `REL_TIME_NONE` (value 0). -/
def relNone : m_rel_time := ⟨Double.zero, REL_TIME_NONE⟩

/-- A context with the given options, stream start time, total length and a
chapter table answering `chapter` for every index. -/
def mkContext (start endSpec len : m_rel_time) (startpts length chapter : Double) : MPContext :=
  ⟨⟨start, endSpec, len⟩, some ⟨startpts, []⟩, length, fun _ => chapter, none, 0⟩

/-- A context whose demuxer has streams with the given next presentation
timestamps. -/
def demuxContext (pts : List Double) : MPContext :=
  ⟨⟨relNone, relNone, relNone⟩, some ⟨Double.zero, pts.map sh_stream.mk⟩, Double.zero,
   fun _ => Double.nan, none, 0⟩

/-- A context whose stream reports the given cache size and fill. -/
def cacheContext (size fill : Option Int) : MPContext :=
  ⟨⟨relNone, relNone, relNone⟩, none, Double.zero, fun _ => Double.nan, some ⟨size, fill⟩, 0⟩

/-- A context that last read the clock at `last_time`. -/
def clockContext (last_time : Int) : MPContext :=
  ⟨⟨relNone, relNone, relNone⟩, none, Double.zero, fun _ => Double.nan, none, last_time⟩

/-! ## Auxiliary facts -/

theorem m_rel_time_type.val_ne_zero_iff (k : m_rel_time_type) :
    k.val ≠ 0 ↔ k ≠ REL_TIME_NONE := by
  cases k <;> simp [m_rel_time_type.val]

theorem Double.sval_zero (s : Bool) (e e0 : Int) : Double.sval s 0 e e0 = 0 := by
  simp [Double.sval]

/-- A value above zero is not below zero. -/
theorem Double.lt_zero_of_zero_lt (x : Double) (h : Double.lt Double.zero x = true) :
    Double.lt x Double.zero = false := by
  cases x with
  | nan => rfl
  | inf s => cases s <;> simp_all [Double.lt, Double.zero]
  | fin s m e =>
    simp only [Double.lt, Double.zero, Double.sval_zero, decide_eq_true_eq] at h
    simp only [Double.lt, Double.zero, Double.sval_zero, decide_eq_false_iff_not, not_lt]
    rw [min_comm] at h
    exact le_of_lt h

/-- The result of `MPMAX(x, 0.0)` is never below zero. -/
theorem MPMAX_zero_not_neg (x : Double) : Double.lt (MPMAX x Double.zero) Double.zero = false := by
  unfold MPMAX
  by_cases h : Double.gt x Double.zero = true
  · rw [if_pos h]
    exact Double.lt_zero_of_zero_lt x h
  · rw [if_neg h]
    rfl

/-- The result of `MPMAX(x, 0.0)` compares `>= 0`, also when `x` is NaN. -/
theorem MPMAX_zero_ge (x : Double) : Double.ge (MPMAX x Double.zero) Double.zero = true := by
  unfold MPMAX
  by_cases h : Double.gt x Double.zero = true
  · rw [if_pos h]
    have h2 : Double.lt Double.zero x = true := h
    simp [Double.ge, h2]
  · rw [if_neg h]
    rfl

/-- Only the total length and the chapter table of the context are read by
`rel_time_to_abs`. -/
theorem rel_time_to_abs_context (o o2 : MPOpts) (d d2 : Option demuxer) (L : Double)
    (C : Double → Double) (st st2 : Option stream) (t0 t2 : Int) (t : m_rel_time) (f : Double) :
    rel_time_to_abs ⟨o, d, L, C, st, t0⟩ t f = rel_time_to_abs ⟨o2, d2, L, C, st2, t2⟩ t f := rfl

/-! ## `rel_time_to_abs` -/

/-- C3: for a specification of kind `REL_TIME_NEGATIVE` with value `v` and a
total length `L` with `L != 0`, `rel_time_to_abs` returns
`MPMAX(L - v, 0.0)`, whatever the fallback and the chapter table; the result
is never below zero: it compares `>= 0` and does not compare `< 0`. -/
theorem rel_time_to_abs_negative (mpctx : MPContext) (v f : Double)
    (h : Double.ne (get_time_length mpctx) (Double.ofInt 0) = true) :
    rel_time_to_abs mpctx ⟨v, REL_TIME_NEGATIVE⟩ f
        = MPMAX (Double.sub (get_time_length mpctx) v) Double.zero
      ∧ Double.ge (rel_time_to_abs mpctx ⟨v, REL_TIME_NEGATIVE⟩ f) Double.zero = true
      ∧ Double.lt (rel_time_to_abs mpctx ⟨v, REL_TIME_NEGATIVE⟩ f) Double.zero = false := by
  have hr : rel_time_to_abs mpctx ⟨v, REL_TIME_NEGATIVE⟩ f
      = MPMAX (Double.sub (get_time_length mpctx) v) Double.zero := by
    simp only [rel_time_to_abs, h, if_true]
  refine ⟨hr, ?_, ?_⟩
  · rw [hr]
    exact MPMAX_zero_ge _
  · rw [hr]
    exact MPMAX_zero_not_neg _

set_option exponentiation.threshold 2048 in
set_option maxRecDepth 100000 in
/-- C3, evaluated: with total length 100, ten seconds from the end is 90 and
150 seconds from the end is clamped to 0. -/
theorem rel_time_to_abs_negative_witness :
    (Double.ne (get_time_length (mkContext relNone relNone relNone Double.zero (Double.ofInt 100) Double.nan))
        (Double.ofInt 0) = true
      ∧ rel_time_to_abs (mkContext relNone relNone relNone Double.zero (Double.ofInt 100) Double.nan)
          ⟨Double.ofInt 10, REL_TIME_NEGATIVE⟩ (Double.ofInt 5) = Double.ofInt 90)
    ∧ rel_time_to_abs (mkContext relNone relNone relNone Double.zero (Double.ofInt 100) Double.nan)
          ⟨Double.ofInt 150, REL_TIME_NEGATIVE⟩ (Double.ofInt 5) = Double.zero :=
  ⟨⟨by decide,
    (rel_time_to_abs_negative (mkContext relNone relNone relNone Double.zero (Double.ofInt 100) Double.nan)
      (Double.ofInt 10) (Double.ofInt 5) (by decide)).1.trans (by decide)⟩,
   (rel_time_to_abs_negative (mkContext relNone relNone relNone Double.zero (Double.ofInt 100) Double.nan)
      (Double.ofInt 150) (Double.ofInt 5) (by decide)).1.trans (by decide)⟩

/-- C4: for a specification of kind `REL_TIME_PERCENT` with value `p` and a
total length `L` with `L != 0`, `rel_time_to_abs` returns `L * (p / 100.0)`,
whatever the fallback and the chapter table. -/
theorem rel_time_to_abs_percent (mpctx : MPContext) (p f : Double)
    (h : Double.ne (get_time_length mpctx) (Double.ofInt 0) = true) :
    rel_time_to_abs mpctx ⟨p, REL_TIME_PERCENT⟩ f
      = Double.mul (get_time_length mpctx) (Double.div p (Double.ofInt 100)) := by
  simp only [rel_time_to_abs, h, if_true]

set_option exponentiation.threshold 2048 in
set_option maxRecDepth 100000 in
/-- C4, evaluated: 25 percent of a total length of 200 is 50. -/
theorem rel_time_to_abs_percent_witness :
    Double.ne (get_time_length (mkContext relNone relNone relNone Double.zero (Double.ofInt 200) Double.nan))
        (Double.ofInt 0) = true
      ∧ rel_time_to_abs (mkContext relNone relNone relNone Double.zero (Double.ofInt 200) Double.nan)
          ⟨Double.ofInt 25, REL_TIME_PERCENT⟩ (Double.ofInt 0) = Double.ofInt 50 :=
  ⟨by decide,
   (rel_time_to_abs_percent (mkContext relNone relNone relNone Double.zero (Double.ofInt 200) Double.nan)
      (Double.ofInt 25) (Double.ofInt 0) (by decide)).trans (by decide)⟩

/-- C5: when the total length compares equal to 0, a specification of kind
`REL_TIME_NEGATIVE` or `REL_TIME_PERCENT`, with any value, resolves to the
fallback itself. -/
theorem rel_time_to_abs_unknown_length (mpctx : MPContext) (t : m_rel_time) (f : Double)
    (hk : t.type_ = REL_TIME_NEGATIVE ∨ t.type_ = REL_TIME_PERCENT)
    (h : Double.eq (get_time_length mpctx) (Double.ofInt 0) = true) :
    rel_time_to_abs mpctx t f = f := by
  have hn : Double.ne (get_time_length mpctx) (Double.ofInt 0) = false := by
    simp [Double.ne, h]
  rcases hk with hk | hk <;> simp [rel_time_to_abs, hk, hn]

set_option maxRecDepth 100000 in
/-- C5, evaluated: ten seconds from the end of a stream of length 0, with
fallback 5, is 5. -/
theorem rel_time_to_abs_unknown_length_witness :
    Double.eq (get_time_length (mkContext relNone relNone relNone Double.zero (Double.ofInt 0) Double.nan))
        (Double.ofInt 0) = true
      ∧ rel_time_to_abs (mkContext relNone relNone relNone Double.zero (Double.ofInt 0) Double.nan)
          ⟨Double.ofInt 10, REL_TIME_NEGATIVE⟩ (Double.ofInt 5) = Double.ofInt 5 :=
  ⟨by decide,
   rel_time_to_abs_unknown_length
     (mkContext relNone relNone relNone Double.zero (Double.ofInt 0) Double.nan)
     ⟨Double.ofInt 10, REL_TIME_NEGATIVE⟩ (Double.ofInt 5) (Or.inl rfl) (by decide)⟩

/-- C6: for a specification of kind `REL_TIME_CHAPTER` with index `i`,
`rel_time_to_abs` returns the chapter start `chapter_start_time(mpctx, i)`
when that value is `>= 0`, and the fallback otherwise (a negative value, the
no-timestamp sentinel or NaN). -/
theorem rel_time_to_abs_chapter (mpctx : MPContext) (i f : Double) :
    rel_time_to_abs mpctx ⟨i, REL_TIME_CHAPTER⟩ f
      = if Double.ge (chapter_start_time mpctx i) (Double.ofInt 0) = true
        then chapter_start_time mpctx i else f := by
  simp only [rel_time_to_abs]

set_option exponentiation.threshold 2048 in
set_option maxRecDepth 100000 in
/-- C6, evaluated at index 2 with fallback 7: a chapter starting at 42 gives
42; a chapter table answering -1, the no-timestamp sentinel or NaN gives 7. -/
theorem rel_time_to_abs_chapter_witness :
    rel_time_to_abs (mkContext relNone relNone relNone Double.zero (Double.ofInt 100) (Double.ofInt 42))
        ⟨Double.ofInt 2, REL_TIME_CHAPTER⟩ (Double.ofInt 7) = Double.ofInt 42
    ∧ rel_time_to_abs (mkContext relNone relNone relNone Double.zero (Double.ofInt 100) (Double.ofInt (-1)))
        ⟨Double.ofInt 2, REL_TIME_CHAPTER⟩ (Double.ofInt 7) = Double.ofInt 7
    ∧ rel_time_to_abs (mkContext relNone relNone relNone Double.zero (Double.ofInt 100) MP_NOPTS_VALUE)
        ⟨Double.ofInt 2, REL_TIME_CHAPTER⟩ (Double.ofInt 7) = Double.ofInt 7
    ∧ rel_time_to_abs (mkContext relNone relNone relNone Double.zero (Double.ofInt 100) Double.nan)
        ⟨Double.ofInt 2, REL_TIME_CHAPTER⟩ (Double.ofInt 7) = Double.ofInt 7 :=
  ⟨(rel_time_to_abs_chapter _ _ _).trans (by decide),
   (rel_time_to_abs_chapter _ _ _).trans (by decide),
   (rel_time_to_abs_chapter _ _ _).trans (by decide),
   (rel_time_to_abs_chapter _ _ _).trans (by decide)⟩

/-- C7: for a specification of kind `REL_TIME_ABSOLUTE`, `rel_time_to_abs`
returns the value of the specification, whatever the fallback, the total
length (0 included) and the chapter table. -/
theorem rel_time_to_abs_absolute (mpctx : MPContext) (v f : Double) :
    rel_time_to_abs mpctx ⟨v, REL_TIME_ABSOLUTE⟩ f = v := by
  simp only [rel_time_to_abs]

/-- C8: for a specification of kind `REL_TIME_NONE`, `rel_time_to_abs`
returns the fallback itself, whatever the total length and the chapter table,
and the value field of the specification is not consulted: two such
specifications with different values resolve identically. -/
theorem rel_time_to_abs_none (mpctx : MPContext) (v w f : Double) :
    rel_time_to_abs mpctx ⟨v, REL_TIME_NONE⟩ f = f
      ∧ rel_time_to_abs mpctx ⟨v, REL_TIME_NONE⟩ f = rel_time_to_abs mpctx ⟨w, REL_TIME_NONE⟩ f := by
  simp only [rel_time_to_abs, and_self]

/-! ## `get_play_end_pts` -/

/-- C1: when the end specification is set (its kind is not `REL_TIME_NONE`),
`get_play_end_pts` returns `rel_time_to_abs(mpctx, play_end, MP_NOPTS_VALUE)`;
the result is the same for any other start specification, length
specification and stream start time; and when the end specification cannot be
resolved (negative or percent with total length 0, or a chapter whose start
is not `>= 0`) the result is `MP_NOPTS_VALUE`, whatever the length
specification. -/
theorem get_play_end_pts_end_set (s e l : m_rel_time) (d : Option demuxer) (L : Double)
    (C : Double → Double) (st : Option stream) (t0 : Int) (h : e.type_ ≠ REL_TIME_NONE) :
    get_play_end_pts ⟨⟨s, e, l⟩, d, L, C, st, t0⟩ = rel_time_to_abs ⟨⟨s, e, l⟩, d, L, C, st, t0⟩ e MP_NOPTS_VALUE
      ∧ (∀ (s2 l2 : m_rel_time) (d2 : Option demuxer),
          get_play_end_pts ⟨⟨s2, e, l2⟩, d2, L, C, st, t0⟩ = get_play_end_pts ⟨⟨s, e, l⟩, d, L, C, st, t0⟩)
      ∧ (((e.type_ = REL_TIME_NEGATIVE ∨ e.type_ = REL_TIME_PERCENT)
              ∧ Double.eq L (Double.ofInt 0) = true)
            ∨ (e.type_ = REL_TIME_CHAPTER ∧ Double.ge (C e.pos) (Double.ofInt 0) = false) →
          get_play_end_pts ⟨⟨s, e, l⟩, d, L, C, st, t0⟩ = MP_NOPTS_VALUE) := by
  have hv : e.type_.val ≠ 0 := (m_rel_time_type.val_ne_zero_iff _).mpr h
  have key : ∀ (s2 l2 : m_rel_time) (d2 : Option demuxer),
      get_play_end_pts ⟨⟨s2, e, l2⟩, d2, L, C, st, t0⟩
        = rel_time_to_abs ⟨⟨s2, e, l2⟩, d2, L, C, st, t0⟩ e MP_NOPTS_VALUE := by
    intro s2 l2 d2
    simp only [get_play_end_pts, hv, ne_eq, not_false_eq_true, if_true]
  refine ⟨key s l d, ?_, ?_⟩
  · intro s2 l2 d2
    rw [key s2 l2 d2, key s l d]
    exact rel_time_to_abs_context _ _ _ _ _ _ _ _ _ _ _ _
  · intro hu
    rw [key s l d]
    cases e with
    | mk pos ty =>
      rcases hu with ⟨hk, h0⟩ | ⟨hk, hc⟩
      · have hn : Double.ne L (Double.ofInt 0) = false := by simp [Double.ne, h0]
        rcases hk with hk | hk <;> simp only at hk <;> subst hk <;>
          simp [rel_time_to_abs, get_time_length, hn]
      · simp only at hk hc
        subst hk
        simp [rel_time_to_abs, chapter_start_time, hc]

set_option maxRecDepth 100000 in
/-- C1, evaluated: an end of 50 percent with total length 0 gives
`MP_NOPTS_VALUE` although a length of 20 seconds from start time 10 is
configured as well. -/
theorem get_play_end_pts_end_set_witness :
    (⟨Double.ofInt 50, REL_TIME_PERCENT⟩ : m_rel_time).type_ ≠ REL_TIME_NONE
      ∧ get_play_end_pts ⟨⟨relNone, ⟨Double.ofInt 50, REL_TIME_PERCENT⟩,
            ⟨Double.ofInt 20, REL_TIME_ABSOLUTE⟩⟩, some ⟨Double.ofInt 10, []⟩, Double.ofInt 0,
            fun _ => Double.nan, none, 0⟩ = MP_NOPTS_VALUE :=
  ⟨by decide,
   (get_play_end_pts_end_set relNone ⟨Double.ofInt 50, REL_TIME_PERCENT⟩
      ⟨Double.ofInt 20, REL_TIME_ABSOLUTE⟩ (some ⟨Double.ofInt 10, []⟩) (Double.ofInt 0)
      (fun _ => Double.nan) none 0 (by decide)).2.2 (Or.inl ⟨Or.inr rfl, by decide⟩)⟩

/-- A specification that resolves with fallback `MP_NOPTS_VALUE` to a value
different from `MP_NOPTS_VALUE` resolves to the same value with any other
fallback. -/
theorem rel_time_to_abs_resolved (mpctx : MPContext) (t : m_rel_time) (f : Double)
    (h : Double.ne (rel_time_to_abs mpctx t MP_NOPTS_VALUE) MP_NOPTS_VALUE = true) :
    rel_time_to_abs mpctx t f = rel_time_to_abs mpctx t MP_NOPTS_VALUE := by
  have hself : Double.ne MP_NOPTS_VALUE MP_NOPTS_VALUE = false := by decide
  cases t with
  | mk pos ty =>
    cases ty
    · simp [rel_time_to_abs, hself] at h
    · simp only [rel_time_to_abs]
    · by_cases hl : Double.ne (get_time_length mpctx) (Double.ofInt 0) = true
      · simp only [rel_time_to_abs, hl, if_true]
      · simp [rel_time_to_abs, hl, hself] at h
    · by_cases hl : Double.ne (get_time_length mpctx) (Double.ofInt 0) = true
      · simp only [rel_time_to_abs, hl, if_true]
      · simp [rel_time_to_abs, hl, hself] at h
    · by_cases hl : Double.ge (chapter_start_time mpctx pos) (Double.ofInt 0) = true
      · simp only [rel_time_to_abs, hl, if_true]
      · simp [rel_time_to_abs, hl, hself] at h

/-- The length branch of `get_play_end_pts`. -/
theorem play_end_length_branch (mpctx : MPContext)
    (hend : mpctx.opts.play_end.type_ = REL_TIME_NONE)
    (hlen : mpctx.opts.play_length.type_ ≠ REL_TIME_NONE) :
    get_play_end_pts mpctx
      = if (Double.ne (rel_time_to_abs mpctx mpctx.opts.play_start (get_start_time mpctx))
              (Double.ofInt (-1))
            && Double.ne (rel_time_to_abs mpctx mpctx.opts.play_length (Double.ofInt (-1)))
              (Double.ofInt (-1))) = true
        then Double.add (rel_time_to_abs mpctx mpctx.opts.play_start (get_start_time mpctx))
              (rel_time_to_abs mpctx mpctx.opts.play_length (Double.ofInt (-1)))
        else MP_NOPTS_VALUE := by
  have hv : mpctx.opts.play_length.type_.val ≠ 0 := (m_rel_time_type.val_ne_zero_iff _).mpr hlen
  have he : ¬ (mpctx.opts.play_end.type_.val ≠ 0) := by
    rw [hend]
    decide
  simp only [get_play_end_pts, if_neg he, if_pos hv]

set_option maxRecDepth 100000 in
/-- C2 as stated fails: with no end, no start specification, a stream start
time of -1 and an absolute length of 20, start and length both differ from
`MP_NOPTS_VALUE`, their sum is 19, yet `get_play_end_pts` returns
`MP_NOPTS_VALUE`. -/
theorem get_play_end_pts_sum_counterexample :
    (mkContext relNone relNone ⟨Double.ofInt 20, REL_TIME_ABSOLUTE⟩ (Double.ofInt (-1))
        (Double.ofInt 100) Double.nan).opts.play_end.type_ = REL_TIME_NONE
      ∧ (mkContext relNone relNone ⟨Double.ofInt 20, REL_TIME_ABSOLUTE⟩ (Double.ofInt (-1))
        (Double.ofInt 100) Double.nan).opts.play_length.type_ ≠ REL_TIME_NONE
      ∧ Double.ne (rel_time_to_abs
          (mkContext relNone relNone ⟨Double.ofInt 20, REL_TIME_ABSOLUTE⟩ (Double.ofInt (-1))
            (Double.ofInt 100) Double.nan) relNone (Double.ofInt (-1))) MP_NOPTS_VALUE = true
      ∧ Double.ne (rel_time_to_abs
          (mkContext relNone relNone ⟨Double.ofInt 20, REL_TIME_ABSOLUTE⟩ (Double.ofInt (-1))
            (Double.ofInt 100) Double.nan) ⟨Double.ofInt 20, REL_TIME_ABSOLUTE⟩ MP_NOPTS_VALUE)
          MP_NOPTS_VALUE = true
      ∧ Double.add (Double.ofInt (-1)) (Double.ofInt 20) = Double.ofInt 19
      ∧ get_play_end_pts
          (mkContext relNone relNone ⟨Double.ofInt 20, REL_TIME_ABSOLUTE⟩ (Double.ofInt (-1))
            (Double.ofInt 100) Double.nan) = MP_NOPTS_VALUE
      ∧ get_play_end_pts
          (mkContext relNone relNone ⟨Double.ofInt 20, REL_TIME_ABSOLUTE⟩ (Double.ofInt (-1))
            (Double.ofInt 100) Double.nan)
          ≠ Double.add (Double.ofInt (-1)) (Double.ofInt 20) := by
  decide

/-- C2, amended: with the end specification `REL_TIME_NONE` and the length
specification set, let `start` be `play_start` resolved with the stream start
time as fallback and `length` be `play_length` resolved with fallback
`MP_NOPTS_VALUE`.  Whenever `start` and `length` both differ from
`MP_NOPTS_VALUE` and from -1, the result is `start + length`.  In particular,
with no start specification, a stream start time `s != -1` and an absolute
length `L != -1`, the result is `s + L`. -/
theorem get_play_end_pts_sum (mpctx : MPContext)
    (hend : mpctx.opts.play_end.type_ = REL_TIME_NONE)
    (hlen : mpctx.opts.play_length.type_ ≠ REL_TIME_NONE) :
    (Double.ne (rel_time_to_abs mpctx mpctx.opts.play_start (get_start_time mpctx))
          MP_NOPTS_VALUE = true →
      Double.ne (rel_time_to_abs mpctx mpctx.opts.play_length MP_NOPTS_VALUE)
          MP_NOPTS_VALUE = true →
      Double.ne (rel_time_to_abs mpctx mpctx.opts.play_start (get_start_time mpctx))
          (Double.ofInt (-1)) = true →
      Double.ne (rel_time_to_abs mpctx mpctx.opts.play_length MP_NOPTS_VALUE)
          (Double.ofInt (-1)) = true →
      get_play_end_pts mpctx
        = Double.add (rel_time_to_abs mpctx mpctx.opts.play_start (get_start_time mpctx))
            (rel_time_to_abs mpctx mpctx.opts.play_length MP_NOPTS_VALUE))
    ∧ (mpctx.opts.play_start.type_ = REL_TIME_NONE →
        mpctx.opts.play_length.type_ = REL_TIME_ABSOLUTE →
        Double.ne (get_start_time mpctx) (Double.ofInt (-1)) = true →
        Double.ne mpctx.opts.play_length.pos (Double.ofInt (-1)) = true →
        get_play_end_pts mpctx = Double.add (get_start_time mpctx) mpctx.opts.play_length.pos) := by
  have hb := play_end_length_branch mpctx hend hlen
  constructor
  · intro _ hl hs1 hl1
    have hres := rel_time_to_abs_resolved mpctx mpctx.opts.play_length (Double.ofInt (-1)) hl
    rw [hres] at hb
    rw [hb, hs1, hl1]
    rfl
  · intro hs hl hs1 hl1
    have e1 : rel_time_to_abs mpctx mpctx.opts.play_start (get_start_time mpctx)
        = get_start_time mpctx := by
      simp only [rel_time_to_abs, hs]
    have e2 : rel_time_to_abs mpctx mpctx.opts.play_length (Double.ofInt (-1))
        = mpctx.opts.play_length.pos := by
      simp only [rel_time_to_abs, hl]
    rw [e1, e2] at hb
    rw [hb, hs1, hl1]
    rfl

set_option maxRecDepth 100000 in
/-- C2, evaluated: no start specification, stream start time 10 and an
absolute length of 20 give 30. -/
theorem get_play_end_pts_sum_witness :
    ((mkContext relNone relNone ⟨Double.ofInt 20, REL_TIME_ABSOLUTE⟩ (Double.ofInt 10)
        (Double.ofInt 100) Double.nan).opts.play_end.type_ = REL_TIME_NONE
      ∧ (mkContext relNone relNone ⟨Double.ofInt 20, REL_TIME_ABSOLUTE⟩ (Double.ofInt 10)
        (Double.ofInt 100) Double.nan).opts.play_length.type_ ≠ REL_TIME_NONE)
    ∧ get_play_end_pts (mkContext relNone relNone ⟨Double.ofInt 20, REL_TIME_ABSOLUTE⟩
        (Double.ofInt 10) (Double.ofInt 100) Double.nan) = Double.ofInt 30 :=
  ⟨⟨rfl, by decide⟩,
   ((get_play_end_pts_sum (mkContext relNone relNone ⟨Double.ofInt 20, REL_TIME_ABSOLUTE⟩
        (Double.ofInt 10) (Double.ofInt 100) Double.nan) rfl (by decide)).2
      rfl rfl (by decide) (by decide)).trans (by decide)⟩

/-- C9: with the end specification `REL_TIME_NONE` and a length specification
that is set but cannot be resolved (negative or percent with total length 0,
or a chapter whose start is not `>= 0`), `get_play_end_pts` returns
`MP_NOPTS_VALUE`, whatever the start specification and the stream start
time. -/
theorem get_play_end_pts_length_unresolved (mpctx : MPContext)
    (hend : mpctx.opts.play_end.type_ = REL_TIME_NONE)
    (hu : ((mpctx.opts.play_length.type_ = REL_TIME_NEGATIVE
              ∨ mpctx.opts.play_length.type_ = REL_TIME_PERCENT)
            ∧ Double.eq (get_time_length mpctx) (Double.ofInt 0) = true)
          ∨ (mpctx.opts.play_length.type_ = REL_TIME_CHAPTER
            ∧ Double.ge (chapter_start_time mpctx mpctx.opts.play_length.pos)
                (Double.ofInt 0) = false)) :
    get_play_end_pts mpctx = MP_NOPTS_VALUE := by
  have hlen : mpctx.opts.play_length.type_ ≠ REL_TIME_NONE := by
    rcases hu with ⟨hk | hk, _⟩ | ⟨hk, _⟩ <;> rw [hk] <;> decide
  have hfb : rel_time_to_abs mpctx mpctx.opts.play_length (Double.ofInt (-1))
      = Double.ofInt (-1) := by
    rcases hu with ⟨hk, h0⟩ | ⟨hk, hc⟩
    · have hn : Double.ne (get_time_length mpctx) (Double.ofInt 0) = false := by
        simp [Double.ne, h0]
      rcases hk with hk | hk <;> simp [rel_time_to_abs, hk, hn]
    · simp [rel_time_to_abs, hk, hc]
  have hself : Double.ne (Double.ofInt (-1)) (Double.ofInt (-1)) = false := by decide
  rw [play_end_length_branch mpctx hend hlen, hfb, hself, Bool.and_false]
  rfl

set_option maxRecDepth 100000 in
/-- C9, evaluated: an absolute start of 5 resolves, a length of 50 percent
of a stream of total length 0 does not, and the result is
`MP_NOPTS_VALUE`. -/
theorem get_play_end_pts_length_unresolved_witness :
    ((mkContext ⟨Double.ofInt 5, REL_TIME_ABSOLUTE⟩ relNone ⟨Double.ofInt 50, REL_TIME_PERCENT⟩
        (Double.ofInt 10) (Double.ofInt 0) Double.nan).opts.play_end.type_ = REL_TIME_NONE
      ∧ rel_time_to_abs
          (mkContext ⟨Double.ofInt 5, REL_TIME_ABSOLUTE⟩ relNone ⟨Double.ofInt 50, REL_TIME_PERCENT⟩
            (Double.ofInt 10) (Double.ofInt 0) Double.nan)
          ⟨Double.ofInt 5, REL_TIME_ABSOLUTE⟩ (Double.ofInt 10) = Double.ofInt 5)
    ∧ get_play_end_pts
        (mkContext ⟨Double.ofInt 5, REL_TIME_ABSOLUTE⟩ relNone ⟨Double.ofInt 50, REL_TIME_PERCENT⟩
          (Double.ofInt 10) (Double.ofInt 0) Double.nan) = MP_NOPTS_VALUE :=
  ⟨⟨rfl, rfl⟩,
   get_play_end_pts_length_unresolved
     (mkContext ⟨Double.ofInt 5, REL_TIME_ABSOLUTE⟩ relNone ⟨Double.ofInt 50, REL_TIME_PERCENT⟩
       (Double.ofInt 10) (Double.ofInt 0) Double.nan)
     rfl (Or.inl ⟨Or.inr rfl, by decide⟩)⟩

set_option maxRecDepth 100000 in
/-- C10 as stated fails: with no end, no start specification, a stream start
time equal to `MP_NOPTS_VALUE` and an absolute length of 1024, the start
resolves to `MP_NOPTS_VALUE`, yet `get_play_end_pts` returns the sum
`MP_NOPTS_VALUE + 1024 = -(2^63 - 1024)`, which differs from
`MP_NOPTS_VALUE`. -/
theorem get_play_end_pts_start_sentinel_counterexample :
    (mkContext relNone relNone ⟨Double.ofInt 1024, REL_TIME_ABSOLUTE⟩ MP_NOPTS_VALUE
        (Double.ofInt 100) Double.nan).opts.play_end.type_ = REL_TIME_NONE
      ∧ (mkContext relNone relNone ⟨Double.ofInt 1024, REL_TIME_ABSOLUTE⟩ MP_NOPTS_VALUE
        (Double.ofInt 100) Double.nan).opts.play_length.type_ = REL_TIME_ABSOLUTE
      ∧ rel_time_to_abs
          (mkContext relNone relNone ⟨Double.ofInt 1024, REL_TIME_ABSOLUTE⟩ MP_NOPTS_VALUE
            (Double.ofInt 100) Double.nan) relNone MP_NOPTS_VALUE = MP_NOPTS_VALUE
      ∧ get_play_end_pts
          (mkContext relNone relNone ⟨Double.ofInt 1024, REL_TIME_ABSOLUTE⟩ MP_NOPTS_VALUE
            (Double.ofInt 100) Double.nan) = Double.ofInt (-(2 ^ 63 - 1024))
      ∧ Double.ne (get_play_end_pts
          (mkContext relNone relNone ⟨Double.ofInt 1024, REL_TIME_ABSOLUTE⟩ MP_NOPTS_VALUE
            (Double.ofInt 100) Double.nan)) MP_NOPTS_VALUE = true
      ∧ get_play_end_pts
          (mkContext relNone relNone ⟨Double.ofInt 1024, REL_TIME_ABSOLUTE⟩ MP_NOPTS_VALUE
            (Double.ofInt 100) Double.nan) ≠ MP_NOPTS_VALUE := by
  decide

/-- C10, amended: with the end specification `REL_TIME_NONE` and the length
specification set, the value that marks an unresolved start is -1, not
`MP_NOPTS_VALUE`.  If the start resolves to a value equal to -1 the result is
`MP_NOPTS_VALUE`.  If the start resolves to `MP_NOPTS_VALUE` and the length
resolves (with fallback -1) to a value different from -1, the result is the
sum `MP_NOPTS_VALUE + length`. -/
theorem get_play_end_pts_start_sentinel (mpctx : MPContext)
    (hend : mpctx.opts.play_end.type_ = REL_TIME_NONE)
    (hlen : mpctx.opts.play_length.type_ ≠ REL_TIME_NONE) :
    (Double.eq (rel_time_to_abs mpctx mpctx.opts.play_start (get_start_time mpctx))
          (Double.ofInt (-1)) = true →
      get_play_end_pts mpctx = MP_NOPTS_VALUE)
    ∧ (rel_time_to_abs mpctx mpctx.opts.play_start (get_start_time mpctx) = MP_NOPTS_VALUE →
        Double.ne (rel_time_to_abs mpctx mpctx.opts.play_length (Double.ofInt (-1)))
          (Double.ofInt (-1)) = true →
        get_play_end_pts mpctx
          = Double.add MP_NOPTS_VALUE
              (rel_time_to_abs mpctx mpctx.opts.play_length (Double.ofInt (-1)))) := by
  have hb := play_end_length_branch mpctx hend hlen
  constructor
  · intro hs
    have hn : Double.ne (rel_time_to_abs mpctx mpctx.opts.play_start (get_start_time mpctx))
        (Double.ofInt (-1)) = false := by
      simp [Double.ne, hs]
    rw [hb, hn, Bool.false_and]
    rfl
  · intro hs hl
    have hn : Double.ne MP_NOPTS_VALUE (Double.ofInt (-1)) = true := by decide
    rw [hs] at hb
    rw [hb, hn, hl]
    rfl

set_option maxRecDepth 100000 in
/-- C10, evaluated: with no start specification, a stream start time of -1
and an absolute length of 20, the result is `MP_NOPTS_VALUE`. -/
theorem get_play_end_pts_start_sentinel_witness :
    ((mkContext relNone relNone ⟨Double.ofInt 20, REL_TIME_ABSOLUTE⟩ (Double.ofInt (-1))
        (Double.ofInt 100) Double.nan).opts.play_end.type_ = REL_TIME_NONE
      ∧ (mkContext relNone relNone ⟨Double.ofInt 20, REL_TIME_ABSOLUTE⟩ (Double.ofInt (-1))
        (Double.ofInt 100) Double.nan).opts.play_length.type_ ≠ REL_TIME_NONE
      ∧ Double.eq (rel_time_to_abs
          (mkContext relNone relNone ⟨Double.ofInt 20, REL_TIME_ABSOLUTE⟩ (Double.ofInt (-1))
            (Double.ofInt 100) Double.nan) relNone (Double.ofInt (-1))) (Double.ofInt (-1)) = true)
    ∧ get_play_end_pts (mkContext relNone relNone ⟨Double.ofInt 20, REL_TIME_ABSOLUTE⟩
        (Double.ofInt (-1)) (Double.ofInt 100) Double.nan) = MP_NOPTS_VALUE :=
  ⟨⟨rfl, by decide, by decide⟩,
   (get_play_end_pts_start_sentinel (mkContext relNone relNone ⟨Double.ofInt 20, REL_TIME_ABSOLUTE⟩
        (Double.ofInt (-1)) (Double.ofInt 100) Double.nan) rfl (by decide)).1 (by decide)⟩

/-- C11: when the end specification and the length specification are both
`REL_TIME_NONE`, `get_play_end_pts` returns `MP_NOPTS_VALUE`, whatever the
start specification, the stream start time, the total length and the chapter
table. -/
theorem get_play_end_pts_unrestricted (mpctx : MPContext)
    (hend : mpctx.opts.play_end.type_ = REL_TIME_NONE)
    (hlen : mpctx.opts.play_length.type_ = REL_TIME_NONE) :
    get_play_end_pts mpctx = MP_NOPTS_VALUE := by
  simp [get_play_end_pts, hend, hlen, m_rel_time_type.val]

set_option maxRecDepth 100000 in
/-- C11, evaluated: an absolute start of 5 in a stream of length 100 starting
at 10, with neither end nor length configured, gives `MP_NOPTS_VALUE`. -/
theorem get_play_end_pts_unrestricted_witness :
    ((mkContext ⟨Double.ofInt 5, REL_TIME_ABSOLUTE⟩ relNone relNone (Double.ofInt 10)
        (Double.ofInt 100) (Double.ofInt 42)).opts.play_end.type_ = REL_TIME_NONE
      ∧ (mkContext ⟨Double.ofInt 5, REL_TIME_ABSOLUTE⟩ relNone relNone (Double.ofInt 10)
        (Double.ofInt 100) (Double.ofInt 42)).opts.play_length.type_ = REL_TIME_NONE)
    ∧ get_play_end_pts (mkContext ⟨Double.ofInt 5, REL_TIME_ABSOLUTE⟩ relNone relNone
        (Double.ofInt 10) (Double.ofInt 100) (Double.ofInt 42)) = MP_NOPTS_VALUE :=
  ⟨⟨rfl, rfl⟩,
   get_play_end_pts_unrestricted (mkContext ⟨Double.ofInt 5, REL_TIME_ABSOLUTE⟩ relNone relNone
     (Double.ofInt 10) (Double.ofInt 100) (Double.ofInt 42)) rfl rfl⟩

/-- C12: in the length branch (end `REL_TIME_NONE`, length set) let `start`
be `play_start` resolved with fallback `get_start_time(mpctx)` and `length` be
`play_length` resolved with fallback -1.  `get_play_end_pts` returns
`start + length` when `start != -1 && length != -1` and `MP_NOPTS_VALUE`
otherwise: -1 is the value treated as unresolved.  So an absolute length equal
to -1 gives `MP_NOPTS_VALUE`, and so does a stream start time equal to -1 when
the start specification is `REL_TIME_NONE`. -/
theorem get_play_end_pts_minus_one (mpctx : MPContext)
    (hend : mpctx.opts.play_end.type_ = REL_TIME_NONE)
    (hlen : mpctx.opts.play_length.type_ ≠ REL_TIME_NONE) :
    ((Double.ne (rel_time_to_abs mpctx mpctx.opts.play_start (get_start_time mpctx))
            (Double.ofInt (-1)) = true
          ∧ Double.ne (rel_time_to_abs mpctx mpctx.opts.play_length (Double.ofInt (-1)))
            (Double.ofInt (-1)) = true →
        get_play_end_pts mpctx
          = Double.add (rel_time_to_abs mpctx mpctx.opts.play_start (get_start_time mpctx))
              (rel_time_to_abs mpctx mpctx.opts.play_length (Double.ofInt (-1))))
      ∧ (¬ (Double.ne (rel_time_to_abs mpctx mpctx.opts.play_start (get_start_time mpctx))
              (Double.ofInt (-1)) = true
            ∧ Double.ne (rel_time_to_abs mpctx mpctx.opts.play_length (Double.ofInt (-1)))
              (Double.ofInt (-1)) = true) →
        get_play_end_pts mpctx = MP_NOPTS_VALUE))
    ∧ (mpctx.opts.play_length.type_ = REL_TIME_ABSOLUTE →
        Double.eq mpctx.opts.play_length.pos (Double.ofInt (-1)) = true →
        get_play_end_pts mpctx = MP_NOPTS_VALUE)
    ∧ (mpctx.opts.play_start.type_ = REL_TIME_NONE →
        Double.eq (get_start_time mpctx) (Double.ofInt (-1)) = true →
        get_play_end_pts mpctx = MP_NOPTS_VALUE) := by
  have hb := play_end_length_branch mpctx hend hlen
  have hno : ¬ (Double.ne (rel_time_to_abs mpctx mpctx.opts.play_start (get_start_time mpctx))
              (Double.ofInt (-1)) = true
            ∧ Double.ne (rel_time_to_abs mpctx mpctx.opts.play_length (Double.ofInt (-1)))
              (Double.ofInt (-1)) = true) →
        get_play_end_pts mpctx = MP_NOPTS_VALUE := by
    intro hg
    rw [hb, if_neg]
    simpa [Bool.and_eq_true] using hg
  refine ⟨⟨?_, hno⟩, ?_, ?_⟩
  · intro hg
    rw [hb, if_pos]
    simp [hg.1, hg.2]
  · intro hk hv
    apply hno
    rintro ⟨_, h2⟩
    have e2 : rel_time_to_abs mpctx mpctx.opts.play_length (Double.ofInt (-1))
        = mpctx.opts.play_length.pos := by
      simp only [rel_time_to_abs, hk]
    rw [e2] at h2
    simp [Double.ne, hv] at h2
  · intro hk hv
    apply hno
    rintro ⟨h1, _⟩
    have e1 : rel_time_to_abs mpctx mpctx.opts.play_start (get_start_time mpctx)
        = get_start_time mpctx := by
      simp only [rel_time_to_abs, hk]
    rw [e1] at h1
    simp [Double.ne, hv] at h1

set_option maxRecDepth 100000 in
/-- C12, evaluated: with no end and no start specification, stream start time
10 and an absolute length of -1 give `MP_NOPTS_VALUE` (not 9); stream start
time -1 and an absolute length of 20 give `MP_NOPTS_VALUE` (not 19). -/
theorem get_play_end_pts_minus_one_witness :
    ((mkContext relNone relNone ⟨Double.ofInt (-1), REL_TIME_ABSOLUTE⟩ (Double.ofInt 10)
          (Double.ofInt 100) Double.nan).opts.play_end.type_ = REL_TIME_NONE
      ∧ (mkContext relNone relNone ⟨Double.ofInt (-1), REL_TIME_ABSOLUTE⟩ (Double.ofInt 10)
          (Double.ofInt 100) Double.nan).opts.play_length.type_ ≠ REL_TIME_NONE
      ∧ get_play_end_pts (mkContext relNone relNone ⟨Double.ofInt (-1), REL_TIME_ABSOLUTE⟩
          (Double.ofInt 10) (Double.ofInt 100) Double.nan) = MP_NOPTS_VALUE)
    ∧ get_play_end_pts (mkContext relNone relNone ⟨Double.ofInt 20, REL_TIME_ABSOLUTE⟩
          (Double.ofInt (-1)) (Double.ofInt 100) Double.nan) = MP_NOPTS_VALUE :=
  ⟨⟨rfl, by decide,
    (get_play_end_pts_minus_one (mkContext relNone relNone ⟨Double.ofInt (-1), REL_TIME_ABSOLUTE⟩
      (Double.ofInt 10) (Double.ofInt 100) Double.nan) rfl (by decide)).2.1 rfl (by decide)⟩,
   (get_play_end_pts_minus_one (mkContext relNone relNone ⟨Double.ofInt 20, REL_TIME_ABSOLUTE⟩
      (Double.ofInt (-1)) (Double.ofInt 100) Double.nan) rfl (by decide)).2.2 rfl (by decide)⟩

/-! ## `mp_get_cache_percent` -/

/-- A value between 0 and 199 is unchanged by the conversion to `int`. -/
theorem wrapSigned_32_small (x : Int) (h0 : 0 ≤ x) (h1 : x < 200) : wrapSigned 32 x = x := by
  unfold wrapSigned
  norm_num
  omega

/-- Without a stream, with a reported size `<= 0` (or none) or with a reported
fill `< 0` (or none), `mp_get_cache_percent` returns -1. -/
theorem cache_percent_unavailable (mpctx : MPContext)
    (h : mpctx.stream = none
      ∨ ∃ s, mpctx.stream = some s
          ∧ (stream_control s.cache_size (-1) ≤ 0 ∨ stream_control s.cache_fill (-1) < 0)) :
    mp_get_cache_percent mpctx = some (-1) := by
  rcases h with h | ⟨s, hs, h⟩
  · simp [mp_get_cache_percent, h]
  · have hg : ¬ (stream_control s.cache_size (-1) > 0 ∧ stream_control s.cache_fill (-1) ≥ 0) := by
      omega
    simp only [mp_get_cache_percent, hs, if_neg hg]

/-- With a reported size from 1 to 99 and a fill `>= 0` the divisor
`size / 100` is 0 and the result of `mp_get_cache_percent` is undefined. -/
theorem cache_percent_zero_divisor (size fill : Int) (h0 : 0 < size) (h1 : size < 100)
    (hf : 0 ≤ fill) : mp_get_cache_percent (cacheContext (some size) (some fill)) = none := by
  have hq : Int.tdiv size 100 = 0 := by
    rw [Int.tdiv_eq_ediv (le_of_lt h0) (by decide)]
    omega
  have hg : size > 0 ∧ fill ≥ 0 := ⟨h0, hf⟩
  simp only [mp_get_cache_percent, cacheContext, stream_control, if_pos hg, if_pos hq]

/-- With a reported size `>= 100` and a fill between 0 and the size, the
result of `mp_get_cache_percent` is the quotient `fill / (size / 100)`; it
lies between 0 and 199, and between 0 and 100 once the size is at least
10000 or is a multiple of 100. -/
theorem cache_percent_range (size fill : Int) (hs : 100 ≤ size) (hf0 : 0 ≤ fill)
    (hf1 : fill ≤ size) :
    mp_get_cache_percent (cacheContext (some size) (some fill)) = some (fill / (size / 100))
      ∧ 0 ≤ fill / (size / 100) ∧ fill / (size / 100) ≤ 199
      ∧ (10000 ≤ size ∨ size % 100 = 0 → fill / (size / 100) ≤ 100) := by
  have hq1 : 1 ≤ size / 100 := by omega
  have hqpos : 0 < size / 100 := by omega
  have hsz : size < size / 100 * 100 + 100 := by omega
  have hnn : 0 ≤ fill / (size / 100) := Int.ediv_nonneg hf0 (le_of_lt hqpos)
  have h199 : fill / (size / 100) < 200 := by
    apply Int.ediv_lt_of_lt_mul hqpos
    have : size < 200 * (size / 100) := by omega
    omega
  have hq : Int.tdiv size 100 = size / 100 := Int.tdiv_eq_ediv (by omega) (by decide)
  have hx : Int.tdiv fill (size / 100) = fill / (size / 100) :=
    Int.tdiv_eq_ediv hf0 (le_of_lt hqpos)
  have hg : size > 0 ∧ fill ≥ 0 := ⟨by omega, hf0⟩
  have hne : ¬ Int.tdiv size 100 = 0 := by
    rw [hq]
    omega
  refine ⟨?_, hnn, by omega, ?_⟩
  · simp only [mp_get_cache_percent, cacheContext, stream_control, if_pos hg, if_neg hne]
    rw [hq, hx, wrapSigned_32_small _ hnn h199]
  · intro hbig
    have : fill / (size / 100) < 101 := by
      apply Int.ediv_lt_of_lt_mul hqpos
      have : size < 101 * (size / 100) := by
        rcases hbig with hbig | hbig <;> omega
      omega
    omega

/-- C13: for a stream reporting cache size 50 and fill 10, the guard
`size > 0 && fill >= 0` holds, the divisor `size / 100` is 0 and
`mp_get_cache_percent` divides by zero: no result is defined. -/
theorem mp_get_cache_percent_divides_by_zero :
    (stream_control (some 50) (-1) > 0 ∧ stream_control (some 10) (-1) ≥ 0)
      ∧ Int.tdiv (stream_control (some 50) (-1)) 100 = 0
      ∧ mp_get_cache_percent (cacheContext (some 50) (some 10)) = none := by
  decide

/-- C14: for a stream reporting cache size 199 and fill 199, where
`100 <= size` and `0 <= fill <= size`, `mp_get_cache_percent` returns
`199 / (199 / 100) = 199`, which is above 100. -/
theorem mp_get_cache_percent_above_100 :
    mp_get_cache_percent (cacheContext (some 199) (some 199)) = some 199
      ∧ ¬ (∃ r : Int, mp_get_cache_percent (cacheContext (some 199) (some 199)) = some r
            ∧ 0 ≤ r ∧ r ≤ 100) := by
  refine ⟨by decide, ?_⟩
  rintro ⟨r, hr, _, h100⟩
  have h : mp_get_cache_percent (cacheContext (some 199) (some 199)) = some 199 := by decide
  rw [h] at hr
  injection hr with hr
  omega

/-- C16: for a stream reporting cache size 1 and fill 0, which is none of the
cases that return -1 (there is a stream, `size > 0`, `fill >= 0`),
`mp_get_cache_percent` divides by `1 / 100 = 0`: the result is not a
non-negative number, it is undefined. -/
theorem mp_get_cache_percent_not_nonnegative :
    (cacheContext (some 1) (some 0)).stream = some ⟨some 1, some 0⟩
      ∧ mp_get_cache_percent (cacheContext (some 1) (some 0)) = none
      ∧ ¬ (∃ r : Int, mp_get_cache_percent (cacheContext (some 1) (some 0)) = some r
            ∧ 0 ≤ r) := by
  refine ⟨rfl, by decide, ?_⟩
  rintro ⟨r, hr, _⟩
  have h : mp_get_cache_percent (cacheContext (some 1) (some 0)) = none := by decide
  rw [h] at hr
  cases hr

/-! ## `get_main_demux_pts` -/

/-- Once the position differs from `MP_NOPTS_VALUE`, the loop of
`get_main_demux_pts` leaves it as it is. -/
theorem demux_loop_keeps (l : List sh_stream) (pos : Double)
    (h : Double.eq pos MP_NOPTS_VALUE = false) :
    l.foldl (fun main_new_pos sh =>
        if Double.eq main_new_pos MP_NOPTS_VALUE then demux_get_next_pts sh else main_new_pos) pos
      = pos := by
  induction l with
  | nil => rfl
  | cons x xs ih =>
    rw [List.foldl_cons]
    simp only [h, Bool.false_eq_true, if_false]
    exact ih

/-- While the position equals `MP_NOPTS_VALUE`, the loop of
`get_main_demux_pts` ends on a value equal to `MP_NOPTS_VALUE` exactly when
every remaining stream reports such a value. -/
theorem demux_loop_nopts (l : List sh_stream) (pos : Double)
    (h : Double.eq pos MP_NOPTS_VALUE = true) :
    Double.eq (l.foldl (fun main_new_pos sh =>
        if Double.eq main_new_pos MP_NOPTS_VALUE then demux_get_next_pts sh else main_new_pos) pos)
        MP_NOPTS_VALUE = true
      ↔ ∀ sh ∈ l, Double.eq (demux_get_next_pts sh) MP_NOPTS_VALUE = true := by
  induction l generalizing pos with
  | nil => simp [h]
  | cons x xs ih =>
    rw [List.foldl_cons]
    simp only [h, if_true, List.mem_cons, forall_eq_or_imp]
    by_cases hx : Double.eq (demux_get_next_pts x) MP_NOPTS_VALUE = true
    · rw [ih _ hx]
      simp [hx]
    · have hx2 : Double.eq (demux_get_next_pts x) MP_NOPTS_VALUE = false := by
        simpa using hx
      rw [demux_loop_keeps xs _ hx2]
      simp [hx2]

/-- C15: `get_main_demux_pts` returns the value of `demux_get_next_pts` for
the first stream, in index order, whose value differs from `MP_NOPTS_VALUE`,
whatever the later streams report; without a demuxer or without streams it
returns `MP_NOPTS_VALUE`; and its result equals `MP_NOPTS_VALUE` exactly when
there is no demuxer or every stream (if any) reports a value equal to
`MP_NOPTS_VALUE`. -/
theorem get_main_demux_pts_first (mpctx : MPContext) :
    (∀ (d : demuxer) (pre post : List sh_stream) (sh : sh_stream),
        mpctx.demuxer = some d → d.streams = pre ++ sh :: post →
        (∀ x ∈ pre, Double.eq (demux_get_next_pts x) MP_NOPTS_VALUE = true) →
        Double.ne (demux_get_next_pts sh) MP_NOPTS_VALUE = true →
        get_main_demux_pts mpctx = demux_get_next_pts sh)
    ∧ (mpctx.demuxer = none → get_main_demux_pts mpctx = MP_NOPTS_VALUE)
    ∧ (∀ d : demuxer, mpctx.demuxer = some d → d.streams = [] →
        get_main_demux_pts mpctx = MP_NOPTS_VALUE)
    ∧ (Double.eq (get_main_demux_pts mpctx) MP_NOPTS_VALUE = true
        ↔ (mpctx.demuxer = none
          ∨ ∃ d : demuxer, mpctx.demuxer = some d
              ∧ (d.streams = []
                ∨ ∀ sh ∈ d.streams, Double.eq (demux_get_next_pts sh) MP_NOPTS_VALUE = true))) := by
  have hself : Double.eq MP_NOPTS_VALUE MP_NOPTS_VALUE = true := by decide
  refine ⟨?_, ?_, ?_, ?_⟩
  · intro d pre post sh hd hstreams hpre hsh
    have hsh2 : Double.eq (demux_get_next_pts sh) MP_NOPTS_VALUE = false := by
      simpa [Double.ne] using hsh
    simp only [get_main_demux_pts, hd, hstreams, List.foldl_append, List.foldl_cons]
    have hp := (demux_loop_nopts pre MP_NOPTS_VALUE hself).mpr hpre
    rw [if_pos hp]
    exact demux_loop_keeps post _ hsh2
  · intro hd
    simp only [get_main_demux_pts, hd]
  · intro d hd hs
    simp only [get_main_demux_pts, hd, hs, List.foldl_nil]
  · cases hd : mpctx.demuxer with
    | none => simp [get_main_demux_pts, hd, hself]
    | some d =>
      simp only [get_main_demux_pts, hd]
      rw [demux_loop_nopts d.streams MP_NOPTS_VALUE hself]
      constructor
      · intro h
        exact Or.inr ⟨d, rfl, Or.inr h⟩
      · rintro (h | ⟨d2, h2, h3⟩)
        · cases h
        · injection h2 with h2
          subst h2
          rcases h3 with h3 | h3
          · rw [h3]
            simp
          · exact h3

set_option maxRecDepth 100000 in
/-- C15, evaluated: streams reporting `MP_NOPTS_VALUE`, 5 and 7 give 5; no
streams and streams reporting only `MP_NOPTS_VALUE` give `MP_NOPTS_VALUE`. -/
theorem get_main_demux_pts_first_witness :
    get_main_demux_pts (demuxContext [MP_NOPTS_VALUE, Double.ofInt 5, Double.ofInt 7])
        = Double.ofInt 5
      ∧ get_main_demux_pts (demuxContext []) = MP_NOPTS_VALUE
      ∧ get_main_demux_pts (demuxContext [MP_NOPTS_VALUE, MP_NOPTS_VALUE]) = MP_NOPTS_VALUE :=
  ⟨(get_main_demux_pts_first
      (demuxContext [MP_NOPTS_VALUE, Double.ofInt 5, Double.ofInt 7])).1
      ⟨Double.zero, [⟨MP_NOPTS_VALUE⟩, ⟨Double.ofInt 5⟩, ⟨Double.ofInt 7⟩]⟩
      [⟨MP_NOPTS_VALUE⟩] [⟨Double.ofInt 7⟩] ⟨Double.ofInt 5⟩ rfl rfl (by decide) (by decide),
   (get_main_demux_pts_first (demuxContext [])).2.2.1 ⟨Double.zero, []⟩ rfl rfl,
   by decide⟩

/-! ## `get_relative_time` -/

/-- A difference representable in `int64_t` is the value of `delta`. -/
theorem relative_time_delta_exact (now : Int) (mpctx : MPContext)
    (h : -(2 ^ 63) ≤ now - mpctx.last_time ∧ now - mpctx.last_time < 2 ^ 63) :
    relative_time_delta now mpctx = now - mpctx.last_time := by
  unfold relative_time_delta wrapSigned
  norm_num at h ⊢
  omega

/-- The values of `delta` in successive calls add up to the last clock
reading minus the initial `last_time`. -/
theorem relative_time_deltas_sum (ts : List Int) (mpctx : MPContext)
    (h : deltas_representable ts mpctx.last_time = true) :
    (relative_time_deltas ts mpctx).sum = ts.getLastD mpctx.last_time - mpctx.last_time := by
  induction ts generalizing mpctx with
  | nil => simp [relative_time_deltas]
  | cons t ts ih =>
    simp only [deltas_representable, Bool.and_eq_true, decide_eq_true_eq] at h
    have hlast : (get_relative_time t mpctx).2.last_time = t := rfl
    have hrest := ih (get_relative_time t mpctx).2 (by rw [hlast]; exact h.2)
    rw [hlast] at hrest
    simp only [relative_time_deltas, List.sum_cons, hrest, relative_time_delta_exact t mpctx h.1,
      List.getLastD_cons]
    omega

/-- The values returned by successive calls are the values of `delta`
multiplied by `0.000001`, and the final `last_time` is the last clock
reading. -/
theorem relative_time_calls_spec (ts : List Int) (mpctx : MPContext) :
    (relative_time_calls ts mpctx).1
        = (relative_time_deltas ts mpctx).map
            (fun delta => Double.mul (Double.ofInt delta) (Double.ofDecimal 1 6))
      ∧ (relative_time_calls ts mpctx).2.last_time = ts.getLastD mpctx.last_time := by
  induction ts generalizing mpctx with
  | nil => simp [relative_time_calls, relative_time_deltas]
  | cons t ts ih =>
    have hlast : (get_relative_time t mpctx).2.last_time = t := rfl
    have hrest := ih (get_relative_time t mpctx).2
    rw [hlast] at hrest
    simp only [relative_time_calls, relative_time_deltas, List.map_cons, hrest.1, hrest.2,
      List.getLastD_cons]
    simp [get_relative_time]

/-- C17: a call of `get_relative_time` at the clock reading `now` returns
`(now - last_time) * 0.000001` for the `last_time` stored before the call
(the difference being representable in `int64_t`); afterwards `last_time` is
`now` and every other field of the context is unchanged.  For a sequence of
calls at the readings `ts`, the returned values are the deltas in
microseconds times `0.000001`, and the deltas add up to the last reading
minus the initial `last_time`. -/
theorem get_relative_time_effect (now : Int) (ts : List Int) (mpctx : MPContext)
    (h : -(2 ^ 63) ≤ now - mpctx.last_time ∧ now - mpctx.last_time < 2 ^ 63)
    (hs : deltas_representable ts mpctx.last_time = true) :
    (get_relative_time now mpctx).1
        = Double.mul (Double.ofInt (now - mpctx.last_time)) (Double.ofDecimal 1 6)
      ∧ (get_relative_time now mpctx).2.last_time = now
      ∧ ((get_relative_time now mpctx).2.opts = mpctx.opts
        ∧ (get_relative_time now mpctx).2.demuxer = mpctx.demuxer
        ∧ (get_relative_time now mpctx).2.time_length = mpctx.time_length
        ∧ (get_relative_time now mpctx).2.chapter_start_time = mpctx.chapter_start_time
        ∧ (get_relative_time now mpctx).2.stream = mpctx.stream)
      ∧ (relative_time_calls ts mpctx).1
          = (relative_time_deltas ts mpctx).map
              (fun delta => Double.mul (Double.ofInt delta) (Double.ofDecimal 1 6))
      ∧ (relative_time_deltas ts mpctx).sum = ts.getLastD mpctx.last_time - mpctx.last_time := by
  refine ⟨?_, rfl, ⟨rfl, rfl, rfl, rfl, rfl⟩, (relative_time_calls_spec ts mpctx).1,
    relative_time_deltas_sum ts mpctx hs⟩
  simp only [get_relative_time, relative_time_delta_exact now mpctx h]

set_option maxRecDepth 100000 in
/-- C17, evaluated: after a clock reading of 1000, a call at 3500 returns
`2500 * 0.000001`; calls at 3500, 4000 and 10000 have deltas 2500, 500 and
6000, which add up to `10000 - 1000`. -/
theorem get_relative_time_effect_witness :
    ((-(2 ^ 63) ≤ 3500 - (clockContext 1000).last_time
        ∧ 3500 - (clockContext 1000).last_time < 2 ^ 63)
      ∧ deltas_representable [3500, 4000, 10000] (clockContext 1000).last_time = true)
    ∧ (get_relative_time 3500 (clockContext 1000)).1
        = Double.mul (Double.ofInt 2500) (Double.ofDecimal 1 6)
    ∧ relative_time_deltas [3500, 4000, 10000] (clockContext 1000) = [2500, 500, 6000]
    ∧ (relative_time_deltas [3500, 4000, 10000] (clockContext 1000)).sum = 10000 - 1000 :=
  ⟨⟨by decide, by decide⟩,
   (get_relative_time_effect 3500 [3500, 4000, 10000] (clockContext 1000) (by decide)
      (by decide)).1,
   by decide,
   (get_relative_time_effect 3500 [3500, 4000, 10000] (clockContext 1000) (by decide)
      (by decide)).2.2.2.2⟩

end Mpv
